import Mathlib

/-!
Verification of the image-composition engine of the facebook_poster
repository: `app/utils/collage.py` and `app/utils/post_generator.py`,
shallowly embedded in Lean.

Modelling conventions:
* An image is a pair of dimensions, a pixel mode and a total pixel
  function; RGB-mode pixels carry `a = 255` (PIL's implicit full alpha).
* PIL primitives used by the program (`new`, `convert`, `crop`, `paste`,
  `alpha_composite`, `ImageDraw.line`) are modelled explicitly.
* The LANCZOS resampling filter and the Gaussian blur filter are library
  code outside the repository; they are taken as function parameters
  (`resample`, `blur`) constrained only by their documented size
  contracts (`SizeContract`, `BlurContract`).  PIL's `Image.resize`
  shortcut — returning a copy when the requested size equals the current
  size — is part of the model (`resize`).
* Text rendering and font loading (`ImageDraw.text`,
  `ImageDraw.rounded_rectangle` used for drawing, `ImageFont`) only ever
  alter pixels of an existing canvas; they are taken as parameters of the
  post generator's environment (`Env`).
* Python floats are modelled by exact rationals; `int()` on the
  non-negative values the program produces is `Nat.floor`.
* File-system effects (directory creation, file writes) are collected in
  the result records; decoding an image path is an oracle
  `String → Option Img`.
-/

namespace FBPoster

/-- One pixel with red, green, blue and alpha channels in `0..255`. -/
structure Pixel where
  r : Nat
  g : Nat
  b : Nat
  a : Nat
deriving DecidableEq

/-- PIL pixel modes used by the program. -/
inductive Mode where
  | RGB
  | RGBA
  | L
deriving DecidableEq

/-- An in-memory decoded raster: dimensions, pixel mode, pixel function. -/
structure Img where
  width : Nat
  height : Nat
  mode : Mode
  px : Nat → Nat → Pixel

/-- `Image.new(mode, (w, h), color)`. -/
def mkConst (w h : Nat) (m : Mode) (p : Pixel) : Img :=
  ⟨w, h, m, fun _ _ => p⟩

/-- `img.convert("RGB")`: the alpha channel is dropped (forced to full). -/
def convertRGB (i : Img) : Img :=
  let f : Nat → Nat → Pixel := fun x y => { i.px x y with a := 255 }
  { i with mode := Mode.RGB, px := f }

/-- `img.convert("RGBA")`: an opaque image gains a fully opaque alpha. -/
def convertRGBA (i : Img) : Img :=
  let f : Nat → Nat → Pixel := fun x y =>
    if i.mode = Mode.RGBA then i.px x y else { i.px x y with a := 255 }
  { i with mode := Mode.RGBA, px := f }

/-- `img.crop((left, top, right, bottom))`: the result has exactly the box
dimensions; pixels outside the source are zero-filled, as in PIL. -/
def crop (i : Img) (left top right bottom : Nat) : Img :=
  let f : Nat → Nat → Pixel := fun x y =>
    if left + x < i.width ∧ top + y < i.height ∧ x < right - left ∧ y < bottom - top then
      i.px (left + x) (top + y)
    else ⟨0, 0, 0, 0⟩
  ⟨right - left, bottom - top, i.mode, f⟩

/-- `canvas.paste(tile, pos)` without a mask: pixels of the pasted region
(clipped to the canvas) are replaced by the tile's pixels. -/
def paste (canvas tile : Img) (pos : Nat × Nat) : Img :=
  let f : Nat → Nat → Pixel := fun x y =>
    if pos.1 ≤ x ∧ x < pos.1 + tile.width ∧ pos.2 ≤ y ∧ y < pos.2 + tile.height ∧
        x < canvas.width ∧ y < canvas.height then
      tile.px (x - pos.1) (y - pos.2)
    else canvas.px x y
  { canvas with px := f }

/-- Conversion of a paste source to the destination's mode, as PIL performs
before pasting. -/
def convertMode (m : Mode) (i : Img) : Img :=
  match m with
  | Mode.RGB => convertRGB i
  | Mode.RGBA => convertRGBA i
  | Mode.L => i

/-- `canvas.paste(tile, pos, mask)` with an 8-bit mask: per-channel blend
`(tile*m + canvas*(255-m))/255`.  The program only ever uses binary masks
(values 0 and 255), on which this formula is exact and rounding-free. -/
def pasteMask (canvas tile : Img) (pos : Nat × Nat) (mask : Nat → Nat → Nat) : Img :=
  let f : Nat → Nat → Pixel := fun x y =>
    if pos.1 ≤ x ∧ x < pos.1 + tile.width ∧ pos.2 ≤ y ∧ y < pos.2 + tile.height ∧
        x < canvas.width ∧ y < canvas.height then
      let m := mask (x - pos.1) (y - pos.2)
      let t := (convertMode canvas.mode tile).px (x - pos.1) (y - pos.2)
      let c := canvas.px x y
      ⟨(t.r * m + c.r * (255 - m)) / 255, (t.g * m + c.g * (255 - m)) / 255,
       (t.b * m + c.b * (255 - m)) / 255, (t.a * m + c.a * (255 - m)) / 255⟩
    else canvas.px x y
  { canvas with px := f }

/-- `img.resize(size, Image.LANCZOS)`: PIL returns an unchanged copy when
the requested size equals the current size; otherwise the LANCZOS
resampler (library code, the parameter `resample`) runs. -/
def resize (resample : Nat × Nat → Img → Img) (target : Nat × Nat) (img : Img) : Img :=
  if img.width = target.1 ∧ img.height = target.2 then img else resample target img

/-- The documented size contract of PIL's resampling filters: the result of
`img.resize(t, filter)` has exactly the requested dimensions. -/
def SizeContract (resample : Nat × Nat → Img → Img) : Prop :=
  ∀ t i, (resample t i).width = t.1 ∧ (resample t i).height = t.2

/-- The documented size contract of `ImageFilter.GaussianBlur`: filtering
preserves the image's dimensions. -/
def BlurContract (blur : Nat → Img → Img) : Prop :=
  ∀ r i, (blur r i).width = i.width ∧ (blur r i).height = i.height

/-- PIL's straight-alpha Porter–Duff "over" operator used by
`Image.alpha_composite`, on channels in `0..255`.  Exact (rounding-free)
whenever the destination pixel is fully transparent, which is the only
case the theorems below evaluate. -/
def alphaCompositePx (dst src : Pixel) : Pixel :=
  let oa255 := src.a * 255 + dst.a * (255 - src.a)
  if oa255 = 0 then ⟨0, 0, 0, 0⟩
  else
    ⟨(src.r * (src.a * 255) + dst.r * (dst.a * (255 - src.a))) / oa255,
     (src.g * (src.a * 255) + dst.g * (dst.a * (255 - src.a))) / oa255,
     (src.b * (src.a * 255) + dst.b * (dst.a * (255 - src.a))) / oa255,
     oa255 / 255⟩

/-- `dst.alpha_composite(src, dest)`: composites `src` over `dst` with its
top-left corner at `dest`, clipped to the destination. -/
def alpha_composite (dst src : Img) (dest : Nat × Nat) : Img :=
  let f : Nat → Nat → Pixel := fun x y =>
    if dest.1 ≤ x ∧ x < dest.1 + src.width ∧ dest.2 ≤ y ∧ y < dest.2 + src.height ∧
        x < dst.width ∧ y < dst.height then
      alphaCompositePx (dst.px x y) (src.px (x - dest.1) (y - dest.2))
    else dst.px x y
  { dst with px := f }

/-! ### `app/utils/collage.py` -/

/-- `_center_crop_to_square` from `collage.py`. -/
def _center_crop_to_square (img : Img) : Img :=
  let w := img.width
  let h := img.height
  let side := min w h
  let left := (w - side) / 2
  let top := (h - side) / 2
  crop img left top (left + side) (top + side)

/-- The scheduling prefix of `make_3x3_collage`: truncate to at most 9
paths and, if fewer, extend by the order-preserving cyclic repetition
`imgs + (imgs * ((reps + len(imgs) - 1) // len(imgs)))[:reps]`. -/
def scheduleImgs (image_paths : List String) : List String :=
  let imgs := image_paths.take 9
  if imgs.length < 9 then
    let reps := 9 - imgs.length
    imgs ++ ((List.replicate ((reps + imgs.length - 1) / imgs.length) imgs).flatten).take reps
  else imgs

/-- One tile of the collage: decode the path via the oracle `fs`
(substituting the flat light-gray `(240, 240, 240)` placeholder of tile
size on failure), centre-crop to a square, resize to the tile size. -/
def tileFor (resample : Nat × Nat → Img → Img) (fs : String → Option Img)
    (tile_w tile_h : Nat) (path : String) : Img :=
  let img := match fs path with
    | some im => convertRGB im
    | none => mkConst tile_w tile_h Mode.RGB ⟨240, 240, 240, 255⟩
  resize resample (tile_w, tile_h) (_center_crop_to_square img)

/-- The paste loop of `make_3x3_collage` over an enumerated slot list:
slot `i` is pasted at `((i % 3) * tile_w, (i // 3) * tile_h)`. -/
def pasteTiles (resample : Nat × Nat → Img → Img) (fs : String → Option Img)
    (tile_w tile_h : Nat) (slots : List (Nat × String)) (canvas : Img) : Img :=
  slots.foldl
    (fun c ip =>
      paste c (tileFor resample fs tile_w tile_h ip.2) ((ip.1 % 3) * tile_w, (ip.1 / 3) * tile_h))
    canvas

/-- The collage canvas built by `make_3x3_collage` for a non-empty input:
a white `size` RGB canvas with the nine scheduled tiles pasted in
row-major order. -/
def collageImage (resample : Nat × Nat → Img → Img) (fs : String → Option Img)
    (image_paths : List String) (size : Nat × Nat) : Img :=
  let imgs := scheduleImgs image_paths
  let tile_w := size.1 / 3
  let tile_h := size.2 / 3
  pasteTiles resample fs tile_w tile_h (imgs.take 9).enum
    (mkConst size.1 size.2 Mode.RGB ⟨255, 255, 255, 255⟩)

/-- Python exceptions raised by the two entry points. -/
inductive PyErr where
  | valueError (msg : String)
deriving DecidableEq

/-- Result of a `make_3x3_collage` call: the files written (path and
encoded canvas) and the returned value or raised exception. -/
structure CollageResult where
  written : List (String × Img)
  result : Except PyErr Unit

/-- `make_3x3_collage` from `collage.py`: raises `ValueError` on an empty
input before any write; otherwise writes exactly one file, the collage
canvas encoded as JPEG quality 90 at `output_path`. -/
def make_3x3_collage (resample : Nat × Nat → Img → Img) (fs : String → Option Img)
    (image_paths : List String) (output_path : String)
    (size : Nat × Nat := (1080, 1080)) : CollageResult :=
  if image_paths = [] then
    ⟨[], Except.error (PyErr.valueError ("image_paths must not be empty"))⟩
  else
    ⟨[(output_path, collageImage resample fs image_paths size)], Except.ok ()⟩

/-- The region of grid cell `i` (row-major) for tile size `tw × th`. -/
def slotRegion (tw th i x y : Nat) : Prop :=
  (i % 3) * tw ≤ x ∧ x < (i % 3) * tw + tw ∧ (i / 3) * th ≤ y ∧ y < (i / 3) * th + th

/-! ### `app/utils/post_generator.py` -/

/-- Colour of gradient row `y` of `_make_gradient_bg`:
`ratio = y / max(h - 1, 1)` and each channel is
`int(start * (1 - ratio) + end * ratio)`, the float arithmetic modelled
exactly over ℚ (the values are non-negative, so `int()` is the floor). -/
def gradientRowColor (h : Nat) (start end_ : Nat × Nat × Nat) (y : Nat) : Pixel :=
  let ratio : ℚ := (y : ℚ) / ((max (h - 1) 1 : Nat) : ℚ)
  ⟨⌊(start.1 : ℚ) * (1 - ratio) + (end_.1 : ℚ) * ratio⌋₊,
   ⌊(start.2.1 : ℚ) * (1 - ratio) + (end_.2.1 : ℚ) * ratio⌋₊,
   ⌊(start.2.2 : ℚ) * (1 - ratio) + (end_.2.2 : ℚ) * ratio⌋₊,
   255⟩

/-- `ImageDraw.line([(0, y), (w, y)], fill=c)`: a horizontal line through
row `y`, clipped to the buffer, so it covers the whole row. -/
def drawHLine (img : Img) (y : Nat) (c : Pixel) : Img :=
  let f : Nat → Nat → Pixel := fun qx qy =>
    if qy = y ∧ qx < img.width ∧ qy < img.height then c else img.px qx qy
  { img with px := f }

/-- `_make_gradient_bg` from `post_generator.py`: an RGB canvas filled with
the start colour, then one horizontal line per row `y in range(h)` in the
interpolated row colour. -/
def _make_gradient_bg (size : Nat × Nat) (start end_ : Nat × Nat × Nat) : Img :=
  (List.range size.2).foldl
    (fun bg y => drawHLine bg y (gradientRowColor size.2 start end_ y))
    (mkConst size.1 size.2 Mode.RGB ⟨start.1, start.2.1, start.2.2, 255⟩)

/-- Squared euclidean distance between integer points. -/
def d2 (cx cy x y : Int) : Int := (x - cx) ^ 2 + (y - cy) ^ 2

/-- Geometric model of PIL's `ImageDraw.rounded_rectangle` rasterizer on
the full box `[(0, 0), (w, h)]` with `fill=255`: a pixel is filled unless
it lies in one of the four corner squares strictly outside that corner's
quarter disc (disc centres `(r, r)`, `(w - r, r)`, `(r, h - r)`,
`(w - r, h - r)`, radius `r`). -/
def insideRoundRect (w h radius : Nat) (x y : Nat) : Bool :=
  let r : Int := radius
  let xi : Int := x
  let yi : Int := y
  let xR : Int := (w : Int) - r
  let yB : Int := (h : Int) - r
  if xi < r ∧ yi < r then decide (d2 r r xi yi ≤ r ^ 2)
  else if xR < xi ∧ yi < r then decide (d2 xR r xi yi ≤ r ^ 2)
  else if xi < r ∧ yB < yi then decide (d2 r yB xi yi ≤ r ^ 2)
  else if xR < xi ∧ yB < yi then decide (d2 xR yB xi yi ≤ r ^ 2)
  else true

/-- `_round_rect` from `post_generator.py`: an `"L"` mask with a filled
rounded rectangle is drawn, a black `"RGB"` canvas is created
(`Image.new("RGB", (w, h))`) and the image is pasted onto it through the
mask. -/
def _round_rect (img : Img) (radius : Nat) : Img :=
  let w := img.width
  let h := img.height
  let mask : Nat → Nat → Nat := fun x y => if insideRoundRect w h radius x y then 255 else 0
  let out := mkConst w h Mode.RGB ⟨0, 0, 0, 255⟩
  pasteMask out img (0, 0) mask

/-- The solid pre-blur shadow layer of `_shadow`: a transparent RGBA canvas
of the padded size with the full `w × h` rectangle `(0, 0, 0, opacity)`
pasted at `(blur_radius + max(offset_x, 0), blur_radius + max(offset_y, 0))`. -/
def shadowLayerPre (w h : Nat) (offset : Int × Int) (blur_radius opacity : Nat) : Img :=
  let bigW := w + offset.1.natAbs + blur_radius * 2
  let bigH := h + offset.2.natAbs + blur_radius * 2
  paste (mkConst bigW bigH Mode.RGBA ⟨0, 0, 0, 0⟩)
    (mkConst w h Mode.RGBA ⟨0, 0, 0, opacity⟩)
    (blur_radius + (max offset.1 0).toNat, blur_radius + (max offset.2 0).toNat)

/-- `_shadow` from `post_generator.py`: the pre-blur layer is Gaussian
blurred (`blur`, library code) and alpha-composited onto a fresh
transparent base of the padded size. -/
def _shadow (blur : Nat → Img → Img) (img : Img) (offset : Int × Int)
    (blur_radius opacity : Nat) : Img :=
  let w := img.width
  let h := img.height
  let bigW := w + offset.1.natAbs + blur_radius * 2
  let bigH := h + offset.2.natAbs + blur_radius * 2
  let shadow_layer := blur blur_radius (shadowLayerPre w h offset blur_radius opacity)
  alpha_composite (mkConst bigW bigH Mode.RGBA ⟨0, 0, 0, 0⟩) shadow_layer (0, 0)

/-- The resized dimensions computed by `_fit_image`:
`scale = max(tw / iw, th / ih)` (exact rationals for the Python floats)
and `(nw, nh) = (int(iw * scale), int(ih * scale))` with truncating
`int()`, i.e. the floor of the non-negative products. -/
def fitResizedDims (iw ih tw th : Nat) : Nat × Nat :=
  let scale : ℚ := max ((tw : ℚ) / (iw : ℚ)) ((th : ℚ) / (ih : ℚ))
  (⌊(iw : ℚ) * scale⌋₊, ⌊(ih : ℚ) * scale⌋₊)

/-- `_fit_image` from `post_generator.py`: scale to cover, resize with
LANCZOS, centre-crop to exactly the target box. -/
def _fit_image (resample : Nat × Nat → Img → Img) (img : Img) (target_box : Nat × Nat) : Img :=
  let nd := fitResizedDims img.width img.height target_box.1 target_box.2
  let resized := resize resample nd img
  let left := (nd.1 - target_box.1) / 2
  let top := (nd.2 - target_box.2) / 2
  crop resized left top (left + target_box.1) (top + target_box.2)

/-! ### Strings and paths -/

/-- Whether a string begins with the given character. -/
def strHasPre (c : Char) (s : String) : Bool := s.data.head? = some c

/-- Whether a string ends with the given character. -/
def strHasSuf (c : Char) (s : String) : Bool := s.data.getLast? = some c

/-- POSIX `os.path.join` restricted to the shapes the program produces:
an absolute second component wins, otherwise the components are joined
with a single separator. -/
def ospathJoin (a b : String) : String :=
  if strHasPre ('/') b then b
  else if a = ("") then b
  else if strHasSuf ('/') a then a ++ b
  else a ++ ("/") ++ b

/-- POSIX `os.path.isabs`. -/
def isAbsolutePath (p : String) : Bool := strHasPre ('/') p

/-- Python `str.strip()`: leading and trailing whitespace removed. -/
def stripStr (s : String) : String :=
  String.mk (((s.data.dropWhile Char.isWhitespace).reverse.dropWhile Char.isWhitespace).reverse)

/-! ### Text fields -/

/-- `context.get(key, default)` on the string mapping. -/
def ctxGet (context : List (String × String)) (key default_ : String) : String :=
  match context.lookup key with
  | some v => v
  | none => default_

/-- The named text attributes consumed by `generate_post_images`. -/
structure TextFields where
  model : String
  manufacture_year : String
  price : String
  location : String
  price_type : String
  phone : String
  condition : String
  site_name : String
deriving DecidableEq

/-- The `context.get` block of `generate_post_images` (lines 112–119):
every field defaults to the empty string except `site_name`, whose
default is `"Ganudenu.store"`. -/
def resolveTextFields (context : List (String × String)) : TextFields where
  model := ctxGet context ("model") ("")
  manufacture_year := ctxGet context ("manufacture_year") ("")
  price := ctxGet context ("price") ("")
  location := ctxGet context ("location") ("")
  price_type := ctxGet context ("price_type") ("")
  phone := ctxGet context ("phone") ("")
  condition := ctxGet context ("condition") ("")
  site_name := ctxGet context ("site_name") ("Ganudenu.store")

/-! ### `generate_post_images` -/

/-- Library / environment collaborators of `generate_post_images`:
resampling, blur, font resolution (a font is identified by its resolved
size), the text and rounded-rectangle drawing of `ImageDraw` (pixel-only
transforms of a canvas), and the decode oracle for image paths. -/
structure Env where
  resample : Nat × Nat → Img → Img
  blur : Nat → Img → Img
  loadFont : Nat → Nat
  drawText : Nat × Nat → String → Nat → Nat × Nat × Nat → Img → Img
  drawRoundedRect : (Nat × Nat) × (Nat × Nat) → Nat → Nat × Nat × Nat → Img → Img
  fs : String → Option Img

/-- Result of a `generate_post_images` call: directories created, files
written (path and encoded canvas, in write order) and the returned
mapping or raised exception. -/
structure PostResult where
  dirsCreated : List String
  written : List (String × Img)
  result : Except PyErr (List (String × String))

/-- `generate_post_images` from `post_generator.py`.  `os.makedirs(out_dir,
exist_ok=True)` runs before the emptiness check; the hero is the first
path (solid `(30, 35, 45)` 1600×1200 fallback on decode failure); the
three variants are rendered and written in order.  In the source, the
`draw` handle of the portrait and banner variants is created on the
pre-composite canvas object which is then rebound, so their text is drawn
onto a discarded image (`stale2` / `stale3` below) and the saved canvases
carry no text. -/
def generate_post_images (env : Env) (image_paths : List String) (out_dir : String)
    (context : List (String × String)) : PostResult :=
  let dirsCreated := [out_dir]
  match image_paths with
  | [] => ⟨dirsCreated, [], Except.error (PyErr.valueError ("No images provided"))⟩
  | p0 :: _ =>
    let hero := match env.fs p0 with
      | some im => convertRGB im
      | none => mkConst 1600 1200 Mode.RGB ⟨30, 35, 45, 255⟩
    let tf := resolveTextFields context
    let title_font := env.loadFont 64
    let subtitle_font := env.loadFont 36
    let small_font := env.loadFont 28
    let bg1 := _make_gradient_bg (1080, 1080) (21, 27, 36) (10, 12, 18)
    let canvas1 := bg1
    let hero_img1 := _round_rect (_fit_image env.resample hero (640, 640)) 28
    let sh1 := _shadow env.blur hero_img1 (0, 12) 32 110
    let base1 := paste (mkConst 1080 1080 Mode.RGBA ⟨0, 0, 0, 0⟩) (convertRGBA canvas1) (0, 0)
    let base1 := alpha_composite base1 sh1 (80 - 16, 140 - 4)
    let base1 := alpha_composite base1 (convertRGBA hero_img1) (80, 140)
    let canvas1 := convertRGB base1
    let title := stripStr (tf.model ++ (" ") ++ tf.manufacture_year)
    let canvas1 := env.drawText (760, 160) title title_font (229, 231, 235) canvas1
    let canvas1 := env.drawText (760, 248)
      (("Price: ") ++ tf.price ++ (" (") ++ tf.price_type ++ (")"))
      subtitle_font (156, 163, 175) canvas1
    let canvas1 := env.drawText (760, 298) (("Condition: ") ++ tf.condition)
      subtitle_font (156, 163, 175) canvas1
    let canvas1 := env.drawText (760, 348) (("Location: ") ++ tf.location)
      subtitle_font (156, 163, 175) canvas1
    let canvas1 := env.drawText (760, 398) (("Contact: ") ++ tf.phone)
      subtitle_font (156, 163, 175) canvas1
    let canvas1 := env.drawRoundedRect ((60, 60), (320, 120)) 18 (59, 130, 246) canvas1
    let canvas1 := env.drawText (76, 70) tf.site_name small_font (255, 255, 255) canvas1
    let path1 := ospathJoin out_dir ("modern_square_1080.jpg")
    let bg2 := _make_gradient_bg (1200, 1500) (21, 27, 36) (10, 12, 18)
    let canvas2 := bg2
    let hero_img2 := _round_rect (_fit_image env.resample hero (1100, 900)) 24
    let sh2 := _shadow env.blur hero_img2 (0, 10) 28 110
    let base2 := paste (mkConst 1200 1500 Mode.RGBA ⟨0, 0, 0, 0⟩) (convertRGBA canvas2) (0, 0)
    let base2 := alpha_composite base2 sh2 (50, 90)
    let base2 := alpha_composite base2 (convertRGBA hero_img2) (60, 100)
    let stale2 := env.drawRoundedRect ((60, 1050), (1140, 1420)) 22 (24, 31, 44) canvas2
    let stale2 := env.drawText (90, 1090) (tf.model ++ (" ") ++ tf.manufacture_year)
      title_font (229, 231, 235) stale2
    let stale2 := env.drawText (90, 1160) (tf.price ++ (" (") ++ tf.price_type ++ (")"))
      subtitle_font (156, 163, 175) stale2
    let stale2 := env.drawText (90, 1210) (tf.condition ++ (" • ") ++ tf.location)
      subtitle_font (156, 163, 175) stale2
    let stale2 := env.drawText (90, 1260) (("Contact: ") ++ tf.phone)
      subtitle_font (156, 163, 175) stale2
    let _stale2 := env.drawText (940, 1260) tf.site_name small_font (99, 102, 241) stale2
    let canvas2 := convertRGB base2
    let path2 := ospathJoin out_dir ("portrait_1200x1500.jpg")
    let bg3 := _make_gradient_bg (1200, 628) (21, 27, 36) (10, 12, 18)
    let canvas3 := bg3
    let hero_img3 := _round_rect (_fit_image env.resample hero (760, 560)) 22
    let sh3 := _shadow env.blur hero_img3 (0, 8) 22 110
    let base3 := paste (mkConst 1200 628 Mode.RGBA ⟨0, 0, 0, 0⟩) (convertRGBA canvas3) (0, 0)
    let base3 := alpha_composite base3 sh3 (40, 34)
    let base3 := alpha_composite base3 (convertRGBA hero_img3) (50, 40)
    let stale3 := env.drawText (840, 60) (tf.model ++ (" ") ++ tf.manufacture_year)
      title_font (229, 231, 235) canvas3
    let stale3 := env.drawText (840, 140) (tf.price ++ (" (") ++ tf.price_type ++ (")"))
      subtitle_font (156, 163, 175) stale3
    let stale3 := env.drawText (840, 190) tf.condition subtitle_font (156, 163, 175) stale3
    let stale3 := env.drawText (840, 240) tf.location subtitle_font (156, 163, 175) stale3
    let stale3 := env.drawRoundedRect ((840, 300), (1140, 360)) 18 (59, 130, 246) stale3
    let _stale3 := env.drawText (860, 312) (("Call ") ++ tf.phone) small_font (255, 255, 255) stale3
    let canvas3 := convertRGB base3
    let path3 := ospathJoin out_dir ("link_1200x628.jpg")
    ⟨dirsCreated,
     [(path1, canvas1), (path2, canvas2), (path3, canvas3)],
     Except.ok
       [(("modern_square_1080"), path1),
        (("portrait_1200x1500"), path2),
        (("link_1200x628"), path3)]⟩

/-! ### Concrete instances for witnesses and counterexamples -/

/-- A resampler satisfying the size contract, used to instantiate the
library parameter in witnesses. -/
def constResample : Nat × Nat → Img → Img :=
  fun t _ => mkConst t.1 t.2 Mode.RGB ⟨0, 0, 0, 255⟩

/-- The identity filter: `ImageFilter.GaussianBlur` with radius 0 leaves
the image unchanged. -/
def idBlur : Nat → Img → Img := fun _ i => i

/-- A concrete environment for witnesses: trivial library collaborators
and a decode oracle that always fails. -/
def trivialEnv : Env where
  resample := constResample
  blur := idBlur
  loadFont := fun n => n
  drawText := fun _ _ _ _ i => i
  drawRoundedRect := fun _ _ _ i => i
  fs := fun _ => none

/-- A 20×20 opaque white RGB image. -/
def whiteSquare20 : Img := mkConst 20 20 Mode.RGB ⟨255, 255, 255, 255⟩

/-- A 1×1 fully transparent RGBA image: its opaque footprint is empty. -/
def transparent1x1 : Img := mkConst 1 1 Mode.RGBA ⟨0, 0, 0, 0⟩

/-! ### Helper lemmas -/

lemma ceil_div_mul_ge (a k : Nat) (hk : 0 < k) (ha : 0 < a) :
    a ≤ ((a + k - 1) / k) * k := by
  have hrw : a + k - 1 = (a - 1) + k := by omega
  rw [hrw, Nat.add_div_right _ hk]
  have h1 := Nat.div_add_mod (a - 1) k
  have h2 : (a - 1) % k < k := Nat.mod_lt _ hk
  rw [Nat.mul_comm k ((a - 1) / k)] at h1
  rw [Nat.succ_mul]
  omega

lemma flatten_replicate_length {α : Type} (l : List α) (m : Nat) :
    ((List.replicate m l).flatten).length = m * l.length := by
  rw [List.length_flatten, List.map_replicate, List.sum_replicate, smul_eq_mul]

lemma flatten_replicate_getElem? {α : Type} (l : List α) (m i : Nat) (h : i < m * l.length) :
    ((List.replicate m l).flatten)[i]? = l[i % l.length]? := by
  induction m generalizing i with
  | zero => simp at h
  | succ m ih =>
      rw [List.replicate_succ, List.flatten_cons]
      by_cases hi : i < l.length
      · rw [List.getElem?_append, if_pos hi, Nat.mod_eq_of_lt hi]
      · push_neg at hi
        rw [List.getElem?_append, if_neg (by omega)]
        have hm := Nat.add_mul m 1 l.length
        rw [one_mul] at hm
        rw [ih (i - l.length) (by omega)]
        rw [← Nat.mod_eq_sub_mod hi]

lemma scheduleImgs_length (paths : List String) (h : paths ≠ []) :
    (scheduleImgs paths).length = 9 := by
  have hlp : 0 < paths.length := List.length_pos.mpr h
  simp only [scheduleImgs]
  split
  · next hlt =>
      rw [List.length_take] at hlt
      have hk : 0 < 9 ⊓ paths.length := by omega
      rw [List.length_append, List.length_take, List.length_take, flatten_replicate_length,
        List.length_take]
      have hc := ceil_div_mul_ge (9 - 9 ⊓ paths.length) (9 ⊓ paths.length) hk (by omega)
      omega
  · next hlt =>
      push_neg at hlt
      rw [List.length_take] at hlt ⊢
      omega

lemma scheduleImgs_getElem? (paths : List String) (h : paths ≠ []) (j : Nat) (hj : j < 9) :
    (scheduleImgs paths)[j]? = paths[j % min paths.length 9]? := by
  have hlp : 0 < paths.length := List.length_pos.mpr h
  simp only [scheduleImgs]
  split
  · next hlt =>
      have hlen : paths.length < 9 := by rw [List.length_take] at hlt; omega
      have htake : paths.take 9 = paths := List.take_of_length_le (by omega)
      rw [htake]
      have hmin : min paths.length 9 = paths.length := by omega
      rw [hmin]
      by_cases hjk : j < paths.length
      · rw [List.getElem?_append, if_pos hjk, Nat.mod_eq_of_lt hjk]
      · push_neg at hjk
        rw [List.getElem?_append, if_neg (by omega)]
        rw [List.getElem?_take, if_pos (by omega)]
        rw [flatten_replicate_getElem?]
        · rw [← Nat.mod_eq_sub_mod hjk]
        · have := ceil_div_mul_ge (9 - paths.length) paths.length hlp (by omega)
          omega
  · next hlt =>
      push_neg at hlt
      have hlen : 9 ≤ paths.length := by rw [List.length_take] at hlt; omega
      have hmin : min paths.length 9 = 9 := by omega
      rw [hmin, Nat.mod_eq_of_lt hj]
      rw [List.getElem?_take, if_pos hj]

lemma scheduleImgs_of_length_nine (paths : List String) (h9 : paths.length = 9) :
    scheduleImgs paths = paths := by
  simp only [scheduleImgs]
  rw [if_neg]
  · exact List.take_of_length_le (by omega)
  · rw [List.length_take]; omega

lemma resize_dims (resample : Nat × Nat → Img → Img) (hres : SizeContract resample)
    (t : Nat × Nat) (i : Img) :
    (resize resample t i).width = t.1 ∧ (resize resample t i).height = t.2 := by
  unfold resize
  split
  · next hc => exact ⟨hc.1, hc.2⟩
  · exact hres t i

lemma fitResizedDims_ge (iw ih tw th : Nat) (hiw : 0 < iw) (hih : 0 < ih) :
    tw ≤ (fitResizedDims iw ih tw th).1 ∧ th ≤ (fitResizedDims iw ih tw th).2 := by
  constructor
  · apply Nat.le_floor
    have h2 : (0 : ℚ) < (iw : ℚ) := by exact_mod_cast hiw
    calc (tw : ℚ) = (iw : ℚ) * ((tw : ℚ) / (iw : ℚ)) := by field_simp
    _ ≤ (iw : ℚ) * max ((tw : ℚ) / (iw : ℚ)) ((th : ℚ) / (ih : ℚ)) :=
        mul_le_mul_of_nonneg_left (le_max_left _ _) (le_of_lt h2)
  · apply Nat.le_floor
    have h2 : (0 : ℚ) < (ih : ℚ) := by exact_mod_cast hih
    calc (th : ℚ) = (ih : ℚ) * ((th : ℚ) / (ih : ℚ)) := by field_simp
    _ ≤ (ih : ℚ) * max ((tw : ℚ) / (iw : ℚ)) ((th : ℚ) / (ih : ℚ)) :=
        mul_le_mul_of_nonneg_left (le_max_right _ _) (le_of_lt h2)

lemma foldl_drawHLine_dims (f : Nat → Pixel) (n : Nat) (c : Img) :
    ((List.range n).foldl (fun bg yy => drawHLine bg yy (f yy)) c).width = c.width ∧
    ((List.range n).foldl (fun bg yy => drawHLine bg yy (f yy)) c).height = c.height := by
  induction n with
  | zero => exact ⟨rfl, rfl⟩
  | succ n ih =>
      rw [List.range_succ, List.foldl_append]
      simp only [List.foldl_cons, List.foldl_nil]
      exact ih

lemma drawHLine_px (img : Img) (y : Nat) (c : Pixel) (qx qy : Nat) :
    (drawHLine img y c).px qx qy =
      if qy = y ∧ qx < img.width ∧ qy < img.height then c else img.px qx qy := rfl

lemma foldl_drawHLine_px (f : Nat → Pixel) (n : Nat) (c : Img) (x y : Nat) :
    ((List.range n).foldl (fun bg yy => drawHLine bg yy (f yy)) c).px x y =
      if y < n ∧ x < c.width ∧ y < c.height then f y else c.px x y := by
  induction n with
  | zero => simp
  | succ n ih =>
      rw [List.range_succ, List.foldl_append]
      simp only [List.foldl_cons, List.foldl_nil]
      have hw := (foldl_drawHLine_dims f n c).1
      have hh := (foldl_drawHLine_dims f n c).2
      rw [drawHLine_px, hw, hh]
      by_cases hy : y = n
      · subst hy
        by_cases hxc : x < c.width ∧ y < c.height
        · rw [if_pos ⟨rfl, hxc.1, hxc.2⟩, if_pos ⟨by omega, hxc.1, hxc.2⟩]
        · rw [if_neg (fun hc => hxc ⟨hc.2.1, hc.2.2⟩), ih,
            if_neg (fun hc => hxc ⟨hc.2.1, hc.2.2⟩),
            if_neg (fun hc => hxc ⟨hc.2.1, hc.2.2⟩)]
      · rw [if_neg (fun hc => hy hc.1), ih]
        by_cases h2 : y < n ∧ x < c.width ∧ y < c.height
        · rw [if_pos h2, if_pos ⟨by omega, h2.2⟩]
        · rw [if_neg h2, if_neg (fun hc => h2 ⟨by omega, hc.2⟩)]

lemma paste_px (canvas tile : Img) (pos : Nat × Nat) (x y : Nat) :
    (paste canvas tile pos).px x y =
      if pos.1 ≤ x ∧ x < pos.1 + tile.width ∧ pos.2 ≤ y ∧ y < pos.2 + tile.height ∧
          x < canvas.width ∧ y < canvas.height then
        tile.px (x - pos.1) (y - pos.2)
      else canvas.px x y := rfl

lemma crop_px (i : Img) (left top right bottom x y : Nat) :
    (crop i left top right bottom).px x y =
      if left + x < i.width ∧ top + y < i.height ∧ x < right - left ∧ y < bottom - top then
        i.px (left + x) (top + y)
      else ⟨0, 0, 0, 0⟩ := rfl

lemma alpha_composite_px (dst src : Img) (dest : Nat × Nat) (x y : Nat) :
    (alpha_composite dst src dest).px x y =
      if dest.1 ≤ x ∧ x < dest.1 + src.width ∧ dest.2 ≤ y ∧ y < dest.2 + src.height ∧
          x < dst.width ∧ y < dst.height then
        alphaCompositePx (dst.px x y) (src.px (x - dest.1) (y - dest.2))
      else dst.px x y := rfl

lemma alphaCompositePx_over_transparent (p : Pixel) :
    alphaCompositePx ⟨0, 0, 0, 0⟩ p = if p.a = 0 then ⟨0, 0, 0, 0⟩ else p := by
  obtain ⟨r, g, b, a⟩ := p
  simp only [alphaCompositePx]
  by_cases hp : a = 0
  · subst hp
    rw [if_pos (show (0 : Nat) * 255 + 0 * (255 - 0) = 0 by norm_num), if_pos rfl]
  · have ha : 0 < a * 255 := by omega
    rw [if_neg (show ¬(a * 255 + 0 * (255 - a) = 0) by omega), if_neg hp]
    have e1 : a * 255 + 0 * (255 - a) = a * 255 := by ring
    rw [e1]
    have e2 : ∀ m : Nat, m * (a * 255) + 0 * (0 * (255 - a)) = m * (a * 255) := by
      intro m
      ring
    rw [e2 r, e2 g, e2 b]
    have hcan : ∀ m : Nat, m * (a * 255) / (a * 255) = m := by
      intro m
      rw [Nat.mul_div_cancel m ha]
    rw [hcan r, hcan g, hcan b, Nat.mul_div_cancel a (by omega)]

lemma lookup_eq_none_of_not_mem_keys (k : String) (l : List (String × String))
    (h : k ∉ l.map Prod.fst) : l.lookup k = none := by
  induction l with
  | nil => rfl
  | cons p l ih =>
      simp only [List.map_cons, List.mem_cons, not_or] at h
      have hb : (k == p.1) = false := beq_eq_false_iff_ne.mpr h.1
      simp [List.lookup, hb, ih h.2]

lemma ctxGet_default (context : List (String × String)) (key default_ : String)
    (h : key ∉ context.map Prod.fst) : ctxGet context key default_ = default_ := by
  unfold ctxGet
  rw [lookup_eq_none_of_not_mem_keys key context h]

lemma tileFor_dims (resample : Nat × Nat → Img → Img) (hres : SizeContract resample)
    (fs : String → Option Img) (tw th : Nat) (p : String) :
    (tileFor resample fs tw th p).width = tw ∧ (tileFor resample fs tw th p).height = th := by
  unfold tileFor
  exact resize_dims resample hres (tw, th) _

lemma pasteTiles_append (resample : Nat × Nat → Img → Img) (fs : String → Option Img)
    (tw th : Nat) (l1 l2 : List (Nat × String)) (c : Img) :
    pasteTiles resample fs tw th (l1 ++ l2) c =
      pasteTiles resample fs tw th l2 (pasteTiles resample fs tw th l1 c) := by
  simp only [pasteTiles, List.foldl_append]

lemma pasteTiles_cons (resample : Nat × Nat → Img → Img) (fs : String → Option Img)
    (tw th : Nat) (e : Nat × String) (l : List (Nat × String)) (c : Img) :
    pasteTiles resample fs tw th (e :: l) c =
      pasteTiles resample fs tw th l
        (paste c (tileFor resample fs tw th e.2) ((e.1 % 3) * tw, (e.1 / 3) * th)) := by
  simp only [pasteTiles, List.foldl_cons]

lemma pasteTiles_dims (resample : Nat × Nat → Img → Img) (fs : String → Option Img)
    (tw th : Nat) (l : List (Nat × String)) (c : Img) :
    (pasteTiles resample fs tw th l c).width = c.width ∧
    (pasteTiles resample fs tw th l c).height = c.height := by
  induction l generalizing c with
  | nil => exact ⟨rfl, rfl⟩
  | cons ip l ih =>
      rw [pasteTiles_cons]
      exact ih _

lemma pasteTiles_px_nocover (resample : Nat × Nat → Img → Img) (fs : String → Option Img)
    (tw th : Nat) (hres : SizeContract resample) (l : List (Nat × String)) (c : Img)
    (x y : Nat) (h : ∀ ip ∈ l, ¬ slotRegion tw th ip.1 x y) :
    (pasteTiles resample fs tw th l c).px x y = c.px x y := by
  revert h
  induction l generalizing c with
  | nil => intro h; rfl
  | cons ip l ih =>
      intro h
      rw [pasteTiles_cons]
      rw [ih _ (fun q hq => h q (List.mem_cons_of_mem _ hq))]
      rw [paste_px]
      rw [if_neg]
      intro hc
      apply h ip (List.mem_cons_self _ _)
      have hd := tileFor_dims resample hres fs tw th ip.2
      have h21 : x < ip.1 % 3 * tw + (tileFor resample fs tw th ip.2).width := hc.2.1
      have h41 : y < ip.1 / 3 * th + (tileFor resample fs tw th ip.2).height := hc.2.2.2.1
      rw [hd.1] at h21
      rw [hd.2] at h41
      exact ⟨hc.1, h21, hc.2.2.1, h41⟩

lemma pasteTiles_px_append (resample : Nat × Nat → Img → Img) (fs : String → Option Img)
    (tw th : Nat) (hres : SizeContract resample) (l1 : List (Nat × String))
    (e : Nat × String) (l2 : List (Nat × String)) (c : Img) (x y : Nat)
    (hcov : slotRegion tw th e.1 x y) (hx : x < c.width) (hy : y < c.height)
    (hnc : ∀ ip ∈ l2, ¬ slotRegion tw th ip.1 x y) :
    (pasteTiles resample fs tw th (l1 ++ e :: l2) c).px x y =
      (tileFor resample fs tw th e.2).px (x - (e.1 % 3) * tw) (y - (e.1 / 3) * th) := by
  rw [pasteTiles_append, pasteTiles_cons]
  rw [pasteTiles_px_nocover resample fs tw th hres l2 _ x y hnc]
  rw [paste_px]
  have hd := tileFor_dims resample hres fs tw th e.2
  have hdim := pasteTiles_dims resample fs tw th l1 c
  rw [if_pos]
  refine ⟨hcov.1, ?_, hcov.2.2.1, ?_, ?_, ?_⟩
  · show x < e.1 % 3 * tw + (tileFor resample fs tw th e.2).width
    rw [hd.1]
    exact hcov.2.1
  · show y < e.1 / 3 * th + (tileFor resample fs tw th e.2).height
    rw [hd.2]
    exact hcov.2.2.2
  · show x < (pasteTiles resample fs tw th l1 c).width
    rw [hdim.1]
    exact hx
  · show y < (pasteTiles resample fs tw th l1 c).height
    rw [hdim.2]
    exact hy

lemma fst_ge_of_mem_enumFrom {α : Type} (l : List α) (n : Nat) (p : Nat × α)
    (h : p ∈ l.enumFrom n) : n ≤ p.1 := by
  induction l generalizing n with
  | nil => simp [List.enumFrom] at h
  | cons a l ih =>
      rw [show List.enumFrom n (a :: l) = (n, a) :: List.enumFrom (n + 1) l from rfl] at h
      rcases List.mem_cons.mp h with h | h
      · subst h
        exact Nat.le.refl
      · exact le_trans (Nat.le_succ n) (ih (n + 1) h)

lemma enumFrom_split {α : Type} (l : List α) (n j : Nat) (a : α) (h : l[j]? = some a) :
    ∃ l1 l2, l.enumFrom n = l1 ++ (n + j, a) :: l2 ∧ ∀ p ∈ l2, n + j < p.1 := by
  induction l generalizing n j with
  | nil => simp at h
  | cons b l ih =>
      cases j with
      | zero =>
          rw [List.getElem?_cons_zero] at h
          obtain rfl : b = a := Option.some.inj h
          refine ⟨[], List.enumFrom (n + 1) l, ?_, ?_⟩
          · rw [List.nil_append]
            rfl
          · intro p hp
            have := fst_ge_of_mem_enumFrom l (n + 1) p hp
            omega
      | succ j =>
          rw [List.getElem?_cons_succ] at h
          obtain ⟨l1, l2, heq, hgt⟩ := ih (n + 1) j h
          refine ⟨(n, b) :: l1, l2, ?_, ?_⟩
          · rw [show List.enumFrom n (b :: l) = (n, b) :: List.enumFrom (n + 1) l from rfl, heq]
            rw [List.cons_append]
            have he : n + 1 + j = n + (j + 1) := by omega
            rw [he]
          · intro p hp
            have := hgt p hp
            omega

lemma tileFor_fail_px (resample : Nat × Nat → Img → Img) (fs : String → Option Img)
    (p : String) (hfs : fs p = none) (dx dy : Nat) (hdx : dx < 360) (hdy : dy < 360) :
    (tileFor resample fs 360 360 p).px dx dy = ⟨240, 240, 240, 255⟩ := by
  unfold tileFor
  rw [hfs]
  show (resize resample (360, 360)
      (_center_crop_to_square (mkConst 360 360 Mode.RGB ⟨240, 240, 240, 255⟩))).px dx dy = _
  unfold resize
  rw [if_pos ⟨rfl, rfl⟩]
  rw [show _center_crop_to_square (mkConst 360 360 Mode.RGB ⟨240, 240, 240, 255⟩) =
      crop (mkConst 360 360 Mode.RGB ⟨240, 240, 240, 255⟩) 0 0 360 360 from rfl]
  show (if 0 + dx < 360 ∧ 0 + dy < 360 ∧ dx < 360 - 0 ∧ dy < 360 - 0 then
      (⟨240, 240, 240, 255⟩ : Pixel) else ⟨0, 0, 0, 0⟩) = ⟨240, 240, 240, 255⟩
  rw [if_pos (by omega)]

lemma collageImage_dims (resample : Nat × Nat → Img → Img) (fs : String → Option Img)
    (paths : List String) :
    (collageImage resample fs paths (1080, 1080)).width = 1080 ∧
    (collageImage resample fs paths (1080, 1080)).height = 1080 := by
  unfold collageImage
  exact pasteTiles_dims resample fs _ _ _ _

lemma collageImage_slot_px (resample : Nat × Nat → Img → Img) (hres : SizeContract resample)
    (fs : String → Option Img) (paths : List String) (hne : paths ≠ []) (j : Nat)
    (pj : String) (hj : (scheduleImgs paths)[j]? = some pj) (x y : Nat)
    (hreg : slotRegion 360 360 j x y) :
    (collageImage resample fs paths (1080, 1080)).px x y =
      (tileFor resample fs 360 360 pj).px (x - (j % 3) * 360) (y - (j / 3) * 360) := by
  have hlen := scheduleImgs_length paths hne
  have hj9 : j < 9 := by
    have := (List.getElem?_eq_some.mp hj).1
    omega
  have htake : (scheduleImgs paths).take 9 = scheduleImgs paths :=
    List.take_of_length_le (by omega)
  obtain ⟨l1, l2, heq, hgt⟩ := enumFrom_split (scheduleImgs paths) 0 j pj hj
  simp only [Nat.zero_add] at heq hgt
  obtain ⟨hr1, hr2, hr3, hr4⟩ := hreg
  show (pasteTiles resample fs 360 360 (((scheduleImgs paths).take 9).enum)
      (mkConst 1080 1080 Mode.RGB ⟨255, 255, 255, 255⟩)).px x y = _
  rw [htake]
  rw [show (scheduleImgs paths).enum = (scheduleImgs paths).enumFrom 0 from rfl, heq]
  exact pasteTiles_px_append resample fs 360 360 hres l1 (j, pj) l2 _ x y
    ⟨hr1, hr2, hr3, hr4⟩ (show x < 1080 by omega) (show y < 1080 by omega)
    (fun ip hip hcontra => by
      have hgtip := hgt ip hip
      obtain ⟨hc1, hc2, hc3, hc4⟩ := hcontra
      omega)

/-! ### The claims -/

/-- C1: for a non-empty input of `k` paths the schedule has exactly 9
slots, slot `j` holds path `j % min(k, 9)` (order-preserving cyclic
repetition from index 0); for `k = 9` the schedule is the input itself,
so distinct inputs occupy distinct cells with no repetition; and every
supplied path among the first `min(k, 9)` appears in some slot. -/
theorem claim_C1_collage_schedule (paths : List String) (h : paths ≠ []) :
    (scheduleImgs paths).length = 9 ∧
    (∀ j, j < 9 → (scheduleImgs paths)[j]? = paths[j % min paths.length 9]?) ∧
    (paths.length = 9 → scheduleImgs paths = paths) ∧
    (paths.length = 9 → paths.Nodup → (scheduleImgs paths).Nodup) ∧
    (∀ i, i < min paths.length 9 → ∃ j, j < 9 ∧ (scheduleImgs paths)[j]? = paths[i]?) := by
  refine ⟨scheduleImgs_length paths h, fun j hj => scheduleImgs_getElem? paths h j hj,
    fun h9 => scheduleImgs_of_length_nine paths h9, ?_, ?_⟩
  · intro h9 hnd
    rw [scheduleImgs_of_length_nine paths h9]
    exact hnd
  · intro i hi
    refine ⟨i, by omega, ?_⟩
    rw [scheduleImgs_getElem? paths h i (by omega), Nat.mod_eq_of_lt hi]

/-- Witness for C1 at a concrete two-path input. -/
theorem claim_C1_collage_schedule_witness :
    (scheduleImgs [("a"), ("b")]).length = 9 ∧
    (scheduleImgs [("a"), ("b")])[4]? = [("a"), ("b")][4 % min 2 9]? := by
  have h := claim_C1_collage_schedule [("a"), ("b")] (by decide)
  exact ⟨h.1, h.2.1 4 (by omega)⟩

/-- C2: for any positive-size input image and positive target box,
`_fit_image` returns an image of exactly the target dimensions, and every
output pixel is read from inside the resized image (the centre-crop never
needs PIL's out-of-bounds zero fill, because the truncated resized
dimensions still dominate the target). -/
theorem claim_C2_fit_image_dims (resample : Nat × Nat → Img → Img)
    (hres : SizeContract resample) (img : Img) (tw th : Nat)
    (hiw : 0 < img.width) (hih : 0 < img.height) (htw : 0 < tw) (hth : 0 < th) :
    (_fit_image resample img (tw, th)).width = tw ∧
    (_fit_image resample img (tw, th)).height = th ∧
    tw ≤ (fitResizedDims img.width img.height tw th).1 ∧
    th ≤ (fitResizedDims img.width img.height tw th).2 ∧
    (∀ x y, x < tw → y < th →
      (_fit_image resample img (tw, th)).px x y =
        (resize resample (fitResizedDims img.width img.height tw th) img).px
          (((fitResizedDims img.width img.height tw th).1 - tw) / 2 + x)
          (((fitResizedDims img.width img.height tw th).2 - th) / 2 + y)) := by
  have hge := fitResizedDims_ge img.width img.height tw th hiw hih
  have hrd := resize_dims resample hres (fitResizedDims img.width img.height tw th) img
  refine ⟨?_, ?_, hge.1, hge.2, ?_⟩
  · simp only [_fit_image, crop]
    omega
  · simp only [_fit_image, crop]
    omega
  · intro x y hx hy
    simp only [_fit_image, crop]
    rw [if_pos]
    constructor
    · rw [hrd.1]
      omega
    refine ⟨?_, by omega, by omega⟩
    rw [hrd.2]
    omega

/-- Witness for C2 at a concrete image and box. -/
theorem claim_C2_fit_image_dims_witness :
    (_fit_image constResample whiteSquare20 (30, 10)).width = 30 ∧
    (_fit_image constResample whiteSquare20 (30, 10)).height = 10 :=
  ⟨(claim_C2_fit_image_dims constResample (fun _ _ => ⟨rfl, rfl⟩) whiteSquare20 30 10
      (by decide) (by decide) (by decide) (by decide)).1,
   (claim_C2_fit_image_dims constResample (fun _ _ => ⟨rfl, rfl⟩) whiteSquare20 30 10
      (by decide) (by decide) (by decide) (by decide)).2.1⟩

/-- C8: `_make_gradient_bg` produces a `w × h` image; every in-bounds
pixel of row `y` has the single row colour interpolated with
`ratio = y / max(h - 1, 1)` and truncating `int()` per RGB channel, so
rows are horizontally constant.  Determinism under identical inputs is
definitional, the embedding being a pure function. -/
theorem claim_C8_gradient_bg (w h : Nat) (start end_ : Nat × Nat × Nat)
    (_hw : 0 < w) (_hh : 0 < h) :
    (_make_gradient_bg (w, h) start end_).width = w ∧
    (_make_gradient_bg (w, h) start end_).height = h ∧
    (∀ x y, x < w → y < h →
      (_make_gradient_bg (w, h) start end_).px x y = gradientRowColor h start end_ y) ∧
    (∀ y, gradientRowColor h start end_ y =
      ⟨⌊(start.1 : ℚ) * (1 - (y : ℚ) / ((max (h - 1) 1 : Nat) : ℚ)) +
          (end_.1 : ℚ) * ((y : ℚ) / ((max (h - 1) 1 : Nat) : ℚ))⌋₊,
       ⌊(start.2.1 : ℚ) * (1 - (y : ℚ) / ((max (h - 1) 1 : Nat) : ℚ)) +
          (end_.2.1 : ℚ) * ((y : ℚ) / ((max (h - 1) 1 : Nat) : ℚ))⌋₊,
       ⌊(start.2.2 : ℚ) * (1 - (y : ℚ) / ((max (h - 1) 1 : Nat) : ℚ)) +
          (end_.2.2 : ℚ) * ((y : ℚ) / ((max (h - 1) 1 : Nat) : ℚ))⌋₊,
       255⟩) ∧
    (∀ x1 x2 y, x1 < w → x2 < w →
      (_make_gradient_bg (w, h) start end_).px x1 y =
        (_make_gradient_bg (w, h) start end_).px x2 y) := by
  have hdims := foldl_drawHLine_dims (gradientRowColor h start end_) h
    (mkConst w h Mode.RGB ⟨start.1, start.2.1, start.2.2, 255⟩)
  have hpx := foldl_drawHLine_px (gradientRowColor h start end_) h
    (mkConst w h Mode.RGB ⟨start.1, start.2.1, start.2.2, 255⟩)
  refine ⟨hdims.1, hdims.2, ?_, fun y => rfl, ?_⟩
  · intro x y hx hy
    rw [show (_make_gradient_bg (w, h) start end_).px x y =
        if y < h ∧ x < w ∧ y < h then gradientRowColor h start end_ y
        else Pixel.mk start.1 start.2.1 start.2.2 255 from hpx x y]
    rw [if_pos ⟨hy, hx, hy⟩]
  · intro x1 x2 y h1 h2
    rw [show (_make_gradient_bg (w, h) start end_).px x1 y =
        if y < h ∧ x1 < w ∧ y < h then gradientRowColor h start end_ y
        else Pixel.mk start.1 start.2.1 start.2.2 255 from hpx x1 y]
    rw [show (_make_gradient_bg (w, h) start end_).px x2 y =
        if y < h ∧ x2 < w ∧ y < h then gradientRowColor h start end_ y
        else Pixel.mk start.1 start.2.1 start.2.2 255 from hpx x2 y]
    by_cases hy : y < h
    · rw [if_pos ⟨hy, h1, hy⟩, if_pos ⟨hy, h2, hy⟩]
    · rw [if_neg (fun hc => hy hc.1), if_neg (fun hc => hy hc.1)]

/-- Witness for C8 at a concrete size. -/
theorem claim_C8_gradient_bg_witness :
    (_make_gradient_bg (4, 3) (21, 27, 36) (10, 12, 18)).width = 4 ∧
    (_make_gradient_bg (4, 3) (21, 27, 36) (10, 12, 18)).px 1 2 =
      gradientRowColor 3 (21, 27, 36) (10, 12, 18) 2 := by
  have h := claim_C8_gradient_bg 4 3 (21, 27, 36) (10, 12, 18) (by omega) (by omega)
  exact ⟨h.1, h.2.2.1 1 2 (by omega) (by omega)⟩

/-- C4 counterexample: on a concrete opaque 20×20 white image with radius
10, `_round_rect` returns an `"RGB"` image — not RGB+alpha — and the
corner pixel `(0, 0)`, outside the rounded rectangle, is opaque black
`(0, 0, 0)` with full alpha rather than transparent. -/
theorem claim_C4_round_rect_counterexample :
    (_round_rect whiteSquare20 10).mode = Mode.RGB ∧ Mode.RGB ≠ Mode.RGBA ∧
    insideRoundRect 20 20 10 0 0 = false ∧
    (_round_rect whiteSquare20 10).px 0 0 = ⟨0, 0, 0, 255⟩ := by
  exact ⟨rfl, by decide, by decide, by decide⟩

/-- C4 (amended): `_round_rect` preserves the input's dimensions and
retains the original pixel values inside the rounded rectangle, but its
output is opaque `"RGB"` (`Image.new("RGB", (w, h))`), so pixels outside
the rounded rectangle are opaque black `(0, 0, 0)`, not alpha-0. -/
theorem claim_C4_round_rect_amended (img : Img) (radius : Nat) :
    (_round_rect img radius).width = img.width ∧
    (_round_rect img radius).height = img.height ∧
    (_round_rect img radius).mode = Mode.RGB ∧
    (∀ x y, x < img.width → y < img.height →
      (_round_rect img radius).px x y =
        if insideRoundRect img.width img.height radius x y then
          ⟨(img.px x y).r, (img.px x y).g, (img.px x y).b, 255⟩
        else ⟨0, 0, 0, 255⟩) := by
  refine ⟨rfl, rfl, rfl, ?_⟩
  intro x y hx hy
  simp only [_round_rect, pasteMask, mkConst, convertMode, convertRGB]
  rw [if_pos ⟨Nat.zero_le x, by omega, Nat.zero_le y, by omega, hx, hy⟩]
  simp only [Nat.sub_zero]
  by_cases hin : insideRoundRect img.width img.height radius x y
  · rw [if_pos hin, if_pos hin]
    norm_num
  · rw [if_neg hin, if_neg hin]
    norm_num

/-- Witness for C4's amended theorem at a concrete image and pixel. -/
theorem claim_C4_round_rect_amended_witness :
    (_round_rect whiteSquare20 10).px 10 10 =
      if insideRoundRect whiteSquare20.width whiteSquare20.height 10 10 10 then
        ⟨(whiteSquare20.px 10 10).r, (whiteSquare20.px 10 10).g,
         (whiteSquare20.px 10 10).b, 255⟩
      else ⟨0, 0, 0, 255⟩ :=
  (claim_C4_round_rect_amended whiteSquare20 10).2.2.2 10 10 (by decide) (by decide)

/-- C6 counterexample: with an empty mapping, the `site_name` field — the
spec's `siteName` — resolves to `"Ganudenu.store"`, not the empty string,
so not every absent field defaults to the empty string. -/
theorem claim_C6_text_fields_counterexample :
    (resolveTextFields []).site_name = ("Ganudenu.store") ∧
    (("Ganudenu.store") : String) ≠ ("") := by
  exact ⟨rfl, by decide⟩

/-- C6 (amended): of the text attributes consumed by
`generate_post_images`, the seven fields model, manufacture_year, price,
location, price_type, phone and condition are optional with empty-string
default, while `site_name` is optional with default `"Ganudenu.store"`. -/
theorem claim_C6_text_fields_amended (context : List (String × String)) :
    ((("model") : String) ∉ context.map Prod.fst →
      (resolveTextFields context).model = ("")) ∧
    ((("manufacture_year") : String) ∉ context.map Prod.fst →
      (resolveTextFields context).manufacture_year = ("")) ∧
    ((("price") : String) ∉ context.map Prod.fst →
      (resolveTextFields context).price = ("")) ∧
    ((("location") : String) ∉ context.map Prod.fst →
      (resolveTextFields context).location = ("")) ∧
    ((("price_type") : String) ∉ context.map Prod.fst →
      (resolveTextFields context).price_type = ("")) ∧
    ((("phone") : String) ∉ context.map Prod.fst →
      (resolveTextFields context).phone = ("")) ∧
    ((("condition") : String) ∉ context.map Prod.fst →
      (resolveTextFields context).condition = ("")) ∧
    ((("site_name") : String) ∉ context.map Prod.fst →
      (resolveTextFields context).site_name = ("Ganudenu.store")) := by
  refine ⟨fun h => ?_, fun h => ?_, fun h => ?_, fun h => ?_, fun h => ?_, fun h => ?_,
    fun h => ?_, fun h => ?_⟩
  all_goals exact ctxGet_default context _ _ h

/-- Witness for C6's amended theorem at the empty mapping. -/
theorem claim_C6_text_fields_amended_witness :
    (resolveTextFields []).model = ("") ∧
    (resolveTextFields []).site_name = ("Ganudenu.store") :=
  ⟨(claim_C6_text_fields_amended []).1 (by decide),
   (claim_C6_text_fields_amended []).2.2.2.2.2.2.2 (by decide)⟩

/-- C3: on the empty input sequence, `make_3x3_collage` raises
`ValueError("image_paths must not be empty")` (the spec's
`EmptyInputError`) and writes no file, and `generate_post_images` raises
`ValueError("No images provided")` and writes none of the three variant
files. -/
theorem claim_C3_empty_input (resample : Nat × Nat → Img → Img) (fs : String → Option Img)
    (out : String) (size : Nat × Nat) (env : Env) (out_dir : String)
    (context : List (String × String)) :
    (make_3x3_collage resample fs [] out size).result =
      Except.error (PyErr.valueError ("image_paths must not be empty")) ∧
    (make_3x3_collage resample fs [] out size).written = [] ∧
    (generate_post_images env [] out_dir context).result =
      Except.error (PyErr.valueError ("No images provided")) ∧
    (generate_post_images env [] out_dir context).written = [] :=
  ⟨rfl, rfl, rfl, rfl⟩

/-- C10: `os.makedirs(out_dir, exist_ok=True)` runs before the emptiness
check of `generate_post_images`, so the output directory is created on
every call — including one that then fails with the empty-input
`ValueError`. -/
theorem claim_C10_makedirs_before_check (env : Env) (out_dir : String)
    (context : List (String × String)) :
    (∀ image_paths,
      (generate_post_images env image_paths out_dir context).dirsCreated = [out_dir]) ∧
    (generate_post_images env [] out_dir context).result =
      Except.error (PyErr.valueError ("No images provided")) := by
  constructor
  · intro image_paths
    cases image_paths with
    | nil => rfl
    | cons p ps => rfl
  · rfl

/-- C5: for any non-empty input in which some scheduled path fails to
decode, `make_3x3_collage` still succeeds, writing exactly one file — the
collage of the full default 1080×1080 canvas; every pixel of grid cell
`j` comes from the scheduled tile of slot `j` (decoded tiles composed
normally, via centre-crop and resize), and each cell whose path fails to
decode is entirely the flat light-gray `(240, 240, 240)` placeholder. -/
theorem claim_C5_partial_failure (resample : Nat × Nat → Img → Img)
    (hres : SizeContract resample) (fs : String → Option Img) (paths : List String)
    (out : String) (hne : paths ≠ [])
    (_hfail : ∃ (j : Nat) (pj : String), (scheduleImgs paths)[j]? = some pj ∧ fs pj = none) :
    (make_3x3_collage resample fs paths out (1080, 1080)).result = Except.ok () ∧
    (make_3x3_collage resample fs paths out (1080, 1080)).written =
      [(out, collageImage resample fs paths (1080, 1080))] ∧
    (collageImage resample fs paths (1080, 1080)).width = 1080 ∧
    (collageImage resample fs paths (1080, 1080)).height = 1080 ∧
    (∀ (j : Nat) (pj : String) (x y : Nat),
      (scheduleImgs paths)[j]? = some pj → slotRegion 360 360 j x y →
      (collageImage resample fs paths (1080, 1080)).px x y =
        (tileFor resample fs 360 360 pj).px (x - (j % 3) * 360) (y - (j / 3) * 360)) ∧
    (∀ (j : Nat) (pj : String) (x y : Nat),
      (scheduleImgs paths)[j]? = some pj → fs pj = none →
      slotRegion 360 360 j x y →
      (collageImage resample fs paths (1080, 1080)).px x y = ⟨240, 240, 240, 255⟩) := by
  refine ⟨?_, ?_, (collageImage_dims resample fs paths).1,
    (collageImage_dims resample fs paths).2, ?_, ?_⟩
  · unfold make_3x3_collage
    rw [if_neg hne]
  · unfold make_3x3_collage
    rw [if_neg hne]
  · intro j pj x y hj hreg
    exact collageImage_slot_px resample hres fs paths hne j pj hj x y hreg
  · intro j pj x y hj hfs hreg
    rw [collageImage_slot_px resample hres fs paths hne j pj hj x y hreg]
    obtain ⟨hr1, hr2, hr3, hr4⟩ := hreg
    exact tileFor_fail_px resample fs pj hfs _ _ (by omega) (by omega)

/-- Witness for C5: a single undecodable path fills the grid; the collage
call succeeds and the top-left pixel is the light-gray placeholder. -/
theorem claim_C5_partial_failure_witness :
    (make_3x3_collage constResample (fun _ => none) [("a")] ("c.jpg") (1080, 1080)).result =
      Except.ok () ∧
    (collageImage constResample (fun _ => none) [("a")] (1080, 1080)).px 0 0 =
      ⟨240, 240, 240, 255⟩ := by
  have h := claim_C5_partial_failure constResample (fun _ _ => ⟨rfl, rfl⟩)
    (fun _ => none) [("a")] ("c.jpg") (by decide) ⟨0, ("a"), by decide, rfl⟩
  exact ⟨h.1, h.2.2.2.2.2 0 ("a") 0 0 (by decide) rfl (by unfold slotRegion; omega)⟩

/-- C7 counterexample: a concrete source image whose opaque footprint is
empty (a fully transparent 1×1 RGBA pixel) still produces a shadow pixel
of full opacity 255 under `_shadow` with radius 0 (Gaussian blur at
radius 0 is the identity) — the silhouette is not shaped like the
source's opaque footprint, it ignores the source's alpha entirely. -/
theorem claim_C7_shadow_counterexample :
    (transparent1x1.px 0 0).a = 0 ∧
    (_shadow idBlur transparent1x1 (0, 0) 0 255).px 0 0 = ⟨0, 0, 0, 255⟩ := by
  exact ⟨rfl, by decide⟩

/-- C7 (amended): `_shadow` returns a transparent RGBA canvas of size
`(w + |offsetX| + 2·blurRadius, h + |offsetY| + 2·blurRadius)` holding
the blurred, uniformly black silhouette of the FULL `w × h` rectangle of
the source's bounds at the given opacity — the source's pixel content and
alpha footprint are ignored (the result depends only on the source's
dimensions) — pasted pre-blur at
`(blurRadius + max(offsetX, 0), blurRadius + max(offsetY, 0))`. -/
theorem claim_C7_shadow_amended (blur : Nat → Img → Img) (hblur : BlurContract blur)
    (img : Img) (ox oy : Int) (br op : Nat) :
    (_shadow blur img (ox, oy) br op).width = img.width + ox.natAbs + br * 2 ∧
    (_shadow blur img (ox, oy) br op).height = img.height + oy.natAbs + br * 2 ∧
    (_shadow blur img (ox, oy) br op).mode = Mode.RGBA ∧
    (∀ img2 : Img, img2.width = img.width → img2.height = img.height →
      _shadow blur img2 (ox, oy) br op = _shadow blur img (ox, oy) br op) ∧
    (∀ x y,
      (shadowLayerPre img.width img.height (ox, oy) br op).px x y =
        if br + (max ox 0).toNat ≤ x ∧ x < br + (max ox 0).toNat + img.width ∧
            br + (max oy 0).toNat ≤ y ∧ y < br + (max oy 0).toNat + img.height ∧
            x < img.width + ox.natAbs + br * 2 ∧ y < img.height + oy.natAbs + br * 2 then
          ⟨0, 0, 0, op⟩
        else ⟨0, 0, 0, 0⟩) ∧
    (∀ x y, x < img.width + ox.natAbs + br * 2 → y < img.height + oy.natAbs + br * 2 →
      (_shadow blur img (ox, oy) br op).px x y =
        if ((blur br (shadowLayerPre img.width img.height (ox, oy) br op)).px x y).a = 0
        then ⟨0, 0, 0, 0⟩
        else (blur br (shadowLayerPre img.width img.height (ox, oy) br op)).px x y) := by
  refine ⟨rfl, rfl, rfl, ?_, fun x y => rfl, ?_⟩
  · intro img2 h1 h2
    unfold _shadow
    rw [h1, h2]
  · intro x y hx hy
    have hLw : (blur br (shadowLayerPre img.width img.height (ox, oy) br op)).width =
        img.width + ox.natAbs + br * 2 := by
      rw [(hblur br _).1]
      rfl
    have hLh : (blur br (shadowLayerPre img.width img.height (ox, oy) br op)).height =
        img.height + oy.natAbs + br * 2 := by
      rw [(hblur br _).2]
      rfl
    show (alpha_composite
        (mkConst (img.width + ox.natAbs + br * 2) (img.height + oy.natAbs + br * 2)
          Mode.RGBA ⟨0, 0, 0, 0⟩)
        (blur br (shadowLayerPre img.width img.height (ox, oy) br op)) (0, 0)).px x y = _
    rw [alpha_composite_px]
    rw [if_pos ⟨Nat.zero_le x, by rw [hLw]; omega, Nat.zero_le y, by rw [hLh]; omega, hx, hy⟩]
    show alphaCompositePx ⟨0, 0, 0, 0⟩
        ((blur br (shadowLayerPre img.width img.height (ox, oy) br op)).px (x - 0) (y - 0)) = _
    rw [alphaCompositePx_over_transparent]
    simp only [Nat.sub_zero]

/-- Witness for C7's amended theorem at a concrete instantiation. -/
theorem claim_C7_shadow_amended_witness :
    (_shadow idBlur transparent1x1 (0, 0) 0 255).width =
      transparent1x1.width + (0 : Int).natAbs + 0 * 2 :=
  (claim_C7_shadow_amended idBlur (fun _ _ => ⟨rfl, rfl⟩) transparent1x1 0 0 0 255).1

/-- C9 counterexample: with the relative output directory `"out"`,
`generate_post_images` returns the three exact variant keys but the paths
are `os.path.join(out_dir, name)`, which is not absolute — refuting the
claim that the mapping always holds absolute paths. -/
theorem claim_C9_output_mapping_counterexample :
    (generate_post_images trivialEnv [("a")] ("out") []).result =
      Except.ok
        [(("modern_square_1080"), ("out/modern_square_1080.jpg")),
         (("portrait_1200x1500"), ("out/portrait_1200x1500.jpg")),
         (("link_1200x628"), ("out/link_1200x628.jpg"))] ∧
    isAbsolutePath ("out/modern_square_1080.jpg") = false := by
  exact ⟨rfl, by decide⟩

/-- C9 (amended): for every non-empty input, `generate_post_images`
returns a mapping whose keys are exactly `modern_square_1080`,
`portrait_1200x1500` and `link_1200x628` in that order, each mapped to
`os.path.join(out_dir, <name>.jpg)` — absolute exactly when `out_dir` is
absolute — and writes exactly the three files with those joined paths. -/
theorem claim_C9_output_mapping_amended (env : Env) (image_paths : List String)
    (out_dir : String) (context : List (String × String)) (h : image_paths ≠ []) :
    (generate_post_images env image_paths out_dir context).result =
      Except.ok
        [(("modern_square_1080"), ospathJoin out_dir ("modern_square_1080.jpg")),
         (("portrait_1200x1500"), ospathJoin out_dir ("portrait_1200x1500.jpg")),
         (("link_1200x628"), ospathJoin out_dir ("link_1200x628.jpg"))] ∧
    (generate_post_images env image_paths out_dir context).written.map Prod.fst =
      [ospathJoin out_dir ("modern_square_1080.jpg"),
       ospathJoin out_dir ("portrait_1200x1500.jpg"),
       ospathJoin out_dir ("link_1200x628.jpg")] := by
  obtain ⟨p, ps, rfl⟩ := List.exists_cons_of_ne_nil h
  exact ⟨rfl, rfl⟩

/-- Witness for C9's amended theorem at a concrete call. -/
theorem claim_C9_output_mapping_amended_witness :
    (generate_post_images trivialEnv [("a")] ("d") []).written.map Prod.fst =
      [ospathJoin ("d") ("modern_square_1080.jpg"),
       ospathJoin ("d") ("portrait_1200x1500.jpg"),
       ospathJoin ("d") ("link_1200x628.jpg")] :=
  (claim_C9_output_mapping_amended trivialEnv [("a")] ("d") [] (by decide)).2

end FBPoster
